import Mathlib

/-!
Shallow embedding of the trading risk calculator (src/calculator.py) and the
portfolio manager (src/portfolio.py).

Numbers are modelled as rationals (`ℚ`); the repository uses Python floats and
its specification declares precision beyond standard floating-point arithmetic
a non-goal.  Python's `max(x, 0)` is `max x 0`; a Python `dict` of mark prices
is an association list `List (String × ℚ)` looked up by first match; raising
`ValueError` is modelled with `Except`.

`src/portfolio.py` imports `calc_liquidation_isolated`, a six-argument
`calc_liquidation_cross`, `calc_mmr` and `get_mmf` from the calculator module,
but `src/calculator.py` contains none of these: it holds a divergent simplified
formula set (its own `calc_liquidation_cross` takes five different arguments
and is never callable from the portfolio's six-argument call site).  The
specification records exactly this situation — two divergent formula sets, the
MMF/MMR-based one canonical — so the missing MMF/MMR-based functions are
modelled from the spec below and are marked `Modelled from the spec:`.
-/

inductive Side
  | long
  | short
deriving DecidableEq, Repr

inductive Mode
  | isolated
  | cross
deriving DecidableEq, Repr

/-- `calc_position_size` from src/calculator.py:
`margin = balance * (risk_pct / 100)`, `position_size = margin * leverage`. -/
def calc_position_size (balance risk_pct leverage : ℚ) : ℚ × ℚ :=
  let margin := balance * (risk_pct / 100)
  let position_size := margin * leverage
  (margin, position_size)

/-- `calc_liquidation_price` from src/calculator.py (the simplified formula
set).  The cross branch computes `available = max (balance - total_margin_used) 0`
and then, on both the `margin_for_this <= 0` branch and the fall-through
branch, returns the same `entry * (1 ∓ 1/leverage)` expression as the
isolated branch. -/
def calc_liquidation_price (entry_price leverage : ℚ) (side : Side) (mode : Mode)
    (balance total_margin_used : ℚ) : ℚ :=
  match mode with
  | Mode.isolated =>
      match side with
      | Side.long => entry_price * (1 - 1 / leverage)
      | Side.short => entry_price * (1 + 1 / leverage)
  | Mode.cross =>
      let available := max (balance - total_margin_used) 0
      let margin_for_this := available
      if margin_for_this ≤ 0 then
        match side with
        | Side.long => entry_price * (1 - 1 / leverage)
        | Side.short => entry_price * (1 + 1 / leverage)
      else
        -- fall-through branch of the Python source ("Fallback for standalone calc")
        match side with
        | Side.long => entry_price * (1 - 1 / leverage)
        | Side.short => entry_price * (1 + 1 / leverage)

/-- `calc_pnl` from src/calculator.py. -/
def calc_pnl (entry_price current_price qty : ℚ) (side : Side) : ℚ :=
  match side with
  | Side.long => (current_price - entry_price) * qty
  | Side.short => (entry_price - current_price) * qty

/-- `calc_pnl_at_tp` from src/calculator.py; returns `(pnl, roi)` where
`roi = (pnl / margin) * 100 if margin > 0 else 0`. -/
def calc_pnl_at_tp (entry_price tp_price margin leverage : ℚ) (side : Side) : ℚ × ℚ :=
  let position_size := margin * leverage
  let qty := position_size / entry_price
  let pnl :=
    match side with
    | Side.long => (tp_price - entry_price) * qty
    | Side.short => (entry_price - tp_price) * qty
  let roi := if margin > 0 then (pnl / margin) * 100 else 0
  (pnl, roi)

/-- Result of `calc_risk_reward`: Python returns `float("inf")` when risk is
non-positive, a finite ratio otherwise. -/
inductive RiskReward
  | inf
  | ratio (r : ℚ)
deriving DecidableEq, Repr

/-- `calc_risk_reward` from src/calculator.py. -/
def calc_risk_reward (entry_price tp_price liq_price : ℚ) (side : Side) : RiskReward :=
  let reward :=
    match side with
    | Side.long => tp_price - entry_price
    | Side.short => entry_price - tp_price
  let risk :=
    match side with
    | Side.long => entry_price - liq_price
    | Side.short => liq_price - entry_price
  if risk ≤ 0 then RiskReward.inf
  else RiskReward.ratio (reward / risk)

/-- Modelled from the spec: `maintenanceMarginRequirement` (the `calc_mmr`
function imported by src/portfolio.py but absent from src/calculator.py):
`MMR = |quantity| × price × mmf`. -/
def calc_mmr (quantity price mmf : ℚ) : ℚ :=
  |quantity| * price * mmf

/-- Modelled from the spec: `liquidationPriceIsolated` (the
`calc_liquidation_isolated` function imported by src/portfolio.py but absent
from src/calculator.py): `s = +quantity` if long else `−quantity`,
`denominator = |s|×mmf − s`; returns 0 when the denominator is 0, else
`(margin − s×entryPrice) / denominator` floored at 0. -/
def calc_liquidation_isolated (entry_price quantity : ℚ) (side : Side)
    (margin mmf : ℚ) : ℚ :=
  let s :=
    match side with
    | Side.long => quantity
    | Side.short => -quantity
  let denominator := |s| * mmf - s
  if denominator = 0 then 0
  else max ((margin - s * entry_price) / denominator) 0

/-- Modelled from the spec: `liquidationPriceCross` (the six-argument
MMF/MMR-based `calc_liquidation_cross` that src/portfolio.py calls; the
five-argument function of the same name in src/calculator.py is the divergent
simplified variant and is not callable from the portfolio's call site):
same `s` and `denominator` as the isolated variant, returns
`(totalEquity − s×entryPrice − mmrOther) / denominator` floored at 0,
and 0 when the denominator is 0. -/
def calc_liquidation_cross (entry_price quantity : ℚ) (side : Side)
    (total_equity mmf mmr_other : ℚ) : ℚ :=
  let s :=
    match side with
    | Side.long => quantity
    | Side.short => -quantity
  let denominator := |s| * mmf - s
  if denominator = 0 then 0
  else max ((total_equity - s * entry_price - mmr_other) / denominator) 0

/-- A mark-price mapping: association list looked up by first match,
standing in for the Python `dict` (`None` and `{}` behave identically at
every use site, so both are the empty list). -/
def lookupPrice : List (String × ℚ) → String → Option ℚ
  | [], _ => none
  | (sym, pr) :: rest, s => if sym = s then some pr else lookupPrice rest s

/-- The `Trade` class of src/portfolio.py.  The global auto-increment id
counter is threaded through the owning `Portfolio` (`next_id` below); the
Python default `mmf=None`, resolved via the per-symbol `get_mmf` table (a
function the portfolio imports but src/calculator.py does not contain), is
modelled by the caller passing the resolved `mmf` value. -/
structure Trade where
  id : ℕ
  symbol : String
  side : Side
  mode : Mode
  entry_price : ℚ
  tp_price : ℚ
  margin : ℚ
  leverage : ℚ
  position_size : ℚ
  qty : ℚ
  mmf : ℚ
  is_open : Bool
  realized_pnl : ℚ
deriving DecidableEq, Repr

/-- `Trade.__init__`: uppercases the symbol, derives
`position_size = margin * leverage` and `qty = position_size / entry_price`,
starts open with zero realized P&L. -/
def mkTrade (id : ℕ) (symbol : String) (side : Side) (mode : Mode)
    (entry_price tp_price margin leverage mmf : ℚ) : Trade :=
  { id := id
    symbol := symbol.toUpper
    side := side
    mode := mode
    entry_price := entry_price
    tp_price := tp_price
    margin := margin
    leverage := leverage
    position_size := margin * leverage
    qty := margin * leverage / entry_price
    mmf := mmf
    is_open := true
    realized_pnl := 0 }

/-- `Trade.unrealized_pnl`: 0 when the trade is closed, otherwise `calc_pnl`. -/
def Trade.unrealized_pnl (t : Trade) (current_price : ℚ) : ℚ :=
  if !t.is_open then 0
  else calc_pnl t.entry_price current_price t.qty t.side

/-- `Trade.maintenance_margin_req`: Python's `price = price or self.entry_price`
falls back to the entry price both when the argument is `None` and when it is
falsy (equals 0). -/
def Trade.maintenance_margin_req (t : Trade) (price? : Option ℚ) : ℚ :=
  let price :=
    match price? with
    | none => t.entry_price
    | some pr => if pr = 0 then t.entry_price else pr
  calc_mmr t.qty price t.mmf

/-- The `Portfolio` class state of src/portfolio.py.  `balance` mirrors the
`self.balance` field the constructor sets (never read elsewhere); `next_id`
threads the `Trade._next_id` auto-increment counter. -/
structure Portfolio where
  initial_balance : ℚ
  balance : ℚ
  realized_pnl : ℚ
  trades : List Trade
  next_id : ℕ
deriving Repr

/-- `Portfolio.__init__(balance)`. -/
def Portfolio.init (balance : ℚ) : Portfolio :=
  { initial_balance := balance
    balance := balance
    realized_pnl := 0
    trades := []
    next_id := 1 }

/-- `Portfolio.total_balance` property. -/
def Portfolio.total_balance (p : Portfolio) : ℚ :=
  p.initial_balance + p.realized_pnl

/-- `Portfolio.open_trades` property. -/
def Portfolio.open_trades (p : Portfolio) : List Trade :=
  p.trades.filter (fun t => t.is_open)

/-- `Portfolio.isolated_margin_used` property. -/
def Portfolio.isolated_margin_used (p : Portfolio) : ℚ :=
  ((p.open_trades.filter (fun t => t.mode = Mode.isolated)).map
    (fun t => t.margin)).sum

/-- `Portfolio.cross_margin_used` property. -/
def Portfolio.cross_margin_used (p : Portfolio) : ℚ :=
  ((p.open_trades.filter (fun t => t.mode = Mode.cross)).map
    (fun t => t.margin)).sum

/-- `Portfolio.total_margin_used` property. -/
def Portfolio.total_margin_used (p : Portfolio) : ℚ :=
  p.isolated_margin_used + p.cross_margin_used

/-- `Portfolio.available_balance` property. -/
def Portfolio.available_balance (p : Portfolio) : ℚ :=
  p.total_balance - p.total_margin_used

/-- The `ValueError` kinds Portfolio operations raise. -/
inductive PortfolioError
  | insufficientBalance
  | notFound
  | alreadyClosed
deriving DecidableEq, Repr

/-- `Portfolio._get_trade`: first trade with the given id, `ValueError`
(here `none`) when absent. -/
def Portfolio.get_trade (p : Portfolio) (trade_id : ℕ) : Option Trade :=
  p.trades.find? (fun t => t.id = trade_id)

/-- `Portfolio.add_trade`: sizes the margin from risk % of total balance,
rejects when the margin exceeds the available balance, otherwise appends a
fresh trade with the next id. -/
def Portfolio.add_trade (p : Portfolio) (symbol : String) (side : Side)
    (mode : Mode) (entry_price tp_price risk_pct leverage mmf : ℚ) :
    Except PortfolioError (Portfolio × Trade) :=
  let margin := (calc_position_size p.total_balance risk_pct leverage).1
  if margin > p.available_balance then
    Except.error PortfolioError.insufficientBalance
  else
    let trade := mkTrade p.next_id symbol side mode entry_price tp_price margin leverage mmf
    Except.ok
      ({ p with trades := p.trades ++ [trade], next_id := p.next_id + 1 }, trade)

/-- `Portfolio.add_trade_fixed_margin`: like `add_trade` but with an explicit
margin amount. -/
def Portfolio.add_trade_fixed_margin (p : Portfolio) (symbol : String)
    (side : Side) (mode : Mode) (entry_price tp_price margin leverage mmf : ℚ) :
    Except PortfolioError (Portfolio × Trade) :=
  if margin > p.available_balance then
    Except.error PortfolioError.insufficientBalance
  else
    let trade := mkTrade p.next_id symbol side mode entry_price tp_price margin leverage mmf
    Except.ok
      ({ p with trades := p.trades ++ [trade], next_id := p.next_id + 1 }, trade)

/-- Replace the first trade carrying the given id (Python mutates the object
`_get_trade` returned, i.e. the first match). -/
def replaceTrade : List Trade → ℕ → Trade → List Trade
  | [], _, _ => []
  | t :: ts, trade_id, new =>
      if t.id = trade_id then new :: ts
      else t :: replaceTrade ts trade_id new

/-- `Portfolio.close_trade`: not-found when no trade has the id,
already-closed when it is not open; otherwise realizes the P&L at the close
price, marks the trade closed and accumulates the portfolio's realized P&L. -/
def Portfolio.close_trade (p : Portfolio) (trade_id : ℕ) (close_price : ℚ) :
    Except PortfolioError (Portfolio × ℚ) :=
  match p.get_trade trade_id with
  | none => Except.error PortfolioError.notFound
  | some trade =>
      if !trade.is_open then Except.error PortfolioError.alreadyClosed
      else
        let pnl := trade.unrealized_pnl close_price
        let closed := { trade with realized_pnl := pnl, is_open := false }
        Except.ok
          ({ p with
              trades := replaceTrade p.trades trade_id closed
              realized_pnl := p.realized_pnl + pnl }, pnl)

/-- `Portfolio._calc_mmr_other`: sums `maintenance_margin_req` over every open
trade except the excluded id, at the mark price when the symbol is present in
the mapping, else at that trade's entry price. -/
def Portfolio.calc_mmr_other (p : Portfolio) (exclude_trade_id : ℕ)
    (prices : List (String × ℚ)) : ℚ :=
  (p.open_trades.filter (fun t => t.id ≠ exclude_trade_id)).foldl
    (fun mmr_o t =>
      let price :=
        match lookupPrice prices t.symbol with
        | some pr => pr
        | none => t.entry_price
      mmr_o + t.maintenance_margin_req (some price)) 0

/-- `Portfolio.get_liquidation_price`: isolated trades use
`calc_liquidation_isolated` with their own margin; cross trades use
`calc_liquidation_cross` with the total balance and `MMR_o` from
`_calc_mmr_other`. -/
def Portfolio.get_liquidation_price (p : Portfolio) (trade_id : ℕ)
    (prices : List (String × ℚ)) : Option ℚ :=
  match p.get_trade trade_id with
  | none => none
  | some trade =>
      match trade.mode with
      | Mode.isolated =>
          some (calc_liquidation_isolated trade.entry_price trade.qty trade.side
            trade.margin trade.mmf)
      | Mode.cross =>
          let mmr_o := p.calc_mmr_other trade.id prices
          some (calc_liquidation_cross trade.entry_price trade.qty trade.side
            p.total_balance trade.mmf mmr_o)

/-- One record of `Portfolio.rebalance_summary`'s result list. -/
structure RebalanceEntry where
  id : ℕ
  symbol : String
  side : Side
  entry : ℚ
  new_liquidation : ℚ
  current_price : Option ℚ
deriving DecidableEq, Repr

/-- `Portfolio.rebalance_summary`: recomputes the liquidation price of every
OPEN CROSS trade and reports it; no mutation.  The inner lookup by id always
succeeds because the id comes from the trade list itself; the `none` arm is
unreachable. -/
def Portfolio.rebalance_summary (p : Portfolio)
    (prices : List (String × ℚ)) : List RebalanceEntry :=
  p.open_trades.filterMap (fun trade =>
    if trade.mode = Mode.cross then
      some
        { id := trade.id
          symbol := trade.symbol
          side := trade.side
          entry := trade.entry_price
          new_liquidation := (p.get_liquidation_price trade.id prices).getD 0
          current_price := lookupPrice prices trade.symbol }
    else none)

/-- A portfolio operation: the two open entry points and close, as exposed by
src/portfolio.py. -/
inductive Op
  | openRisk (symbol : String) (side : Side) (mode : Mode)
      (entry_price tp_price risk_pct leverage mmf : ℚ)
  | openFixed (symbol : String) (side : Side) (mode : Mode)
      (entry_price tp_price margin leverage mmf : ℚ)
  | close (trade_id : ℕ) (close_price : ℚ)

/-- Apply one operation; a raised `ValueError` leaves the portfolio unchanged
(Python raises before any mutation). -/
def applyOp (p : Portfolio) : Op → Portfolio
  | Op.openRisk sym side mode e tp r lev mmf =>
      match p.add_trade sym side mode e tp r lev mmf with
      | Except.ok (p', _) => p'
      | Except.error _ => p
  | Op.openFixed sym side mode e tp m lev mmf =>
      match p.add_trade_fixed_margin sym side mode e tp m lev mmf with
      | Except.ok (p', _) => p'
      | Except.error _ => p
  | Op.close tid cp =>
      match p.close_trade tid cp with
      | Except.ok (p', _) => p'
      | Except.error _ => p

/-- Apply a sequence of operations in order. -/
def applyOps (p : Portfolio) (ops : List Op) : Portfolio :=
  ops.foldl applyOp p

/-- The trade id an operation closes, if it is a close. -/
def Op.closeId : Op → Option ℕ
  | Op.close tid _ => some tid
  | _ => none

/-! ### Helper lemmas -/

theorem find?_append_some {α : Type} {l l' : List α} {f : α → Bool} {x : α}
    (h : l.find? f = some x) : (l ++ l').find? f = some x := by
  induction l with
  | nil => simp [List.find?] at h
  | cons a as ih =>
      rw [List.cons_append, List.find?]
      rw [List.find?] at h
      cases hfa : f a with
      | true => rw [hfa] at h; exact h
      | false => rw [hfa] at h; exact ih h

theorem find?_replaceTrade_ne {l : List Trade} {tid tid' : ℕ} {new : Trade}
    (hnew : new.id = tid') (hne : tid ≠ tid') :
    (replaceTrade l tid' new).find? (fun t => t.id = tid) =
      l.find? (fun t => t.id = tid) := by
  induction l with
  | nil => rfl
  | cons a as ih =>
      by_cases ha : a.id = tid'
      · simp only [replaceTrade, ha, if_pos rfl]
        have h1 : (decide (new.id = tid)) = false := by
          simp [hnew]; omega
        have h2 : (decide (a.id = tid)) = false := by
          simp [ha]; omega
        simp [List.find?, h1, h2]
      · simp only [replaceTrade, if_neg ha]
        by_cases hat : a.id = tid
        · simp [List.find?, hat]
        · simp [List.find?, hat, ih]

theorem find?_replaceTrade_self {l : List Trade} {tid : ℕ} {t new : Trade}
    (h : l.find? (fun u => u.id = tid) = some t) (hnew : new.id = tid) :
    (replaceTrade l tid new).find? (fun u => u.id = tid) = some new := by
  induction l with
  | nil => simp [List.find?] at h
  | cons a as ih =>
      by_cases ha : a.id = tid
      · simp only [replaceTrade, ha, if_pos rfl]
        simp [List.find?, hnew]
      · simp only [replaceTrade, if_neg ha]
        simp only [List.find?, ha, decide_False] at h ⊢
        simpa using ih (by simpa using h)

theorem foldl_add_map {α : Type} (l : List α) (f : α → ℚ) (a : ℚ) :
    l.foldl (fun acc x => acc + f x) a = a + (l.map f).sum := by
  induction l generalizing a with
  | nil => simp
  | cons x xs ih => simp [List.foldl, ih (a + f x)]; ring

/-- `_get_trade` finds a trade whose id is the one requested and which belongs
to the trade list. -/
theorem get_trade_spec {p : Portfolio} {tid : ℕ} {t : Trade}
    (h : p.get_trade tid = some t) : t ∈ p.trades ∧ t.id = tid := by
  unfold Portfolio.get_trade at h
  refine ⟨List.mem_of_find?_eq_some h, ?_⟩
  have := List.find?_some h
  simpa using this

/-- The isolated branch of `get_liquidation_price` in closed form. -/
theorem get_liquidation_price_isolated {p : Portfolio} {tid : ℕ} {t : Trade}
    (prices : List (String × ℚ)) (h : p.get_trade tid = some t)
    (hm : t.mode = Mode.isolated) :
    p.get_liquidation_price tid prices =
      some (calc_liquidation_isolated t.entry_price t.qty t.side t.margin t.mmf) := by
  simp only [Portfolio.get_liquidation_price, h, hm]

/-- The cross branch of `get_liquidation_price` in closed form. -/
theorem get_liquidation_price_cross {p : Portfolio} {tid : ℕ} {t : Trade}
    (prices : List (String × ℚ)) (h : p.get_trade tid = some t)
    (hm : t.mode = Mode.cross) :
    p.get_liquidation_price tid prices =
      some (calc_liquidation_cross t.entry_price t.qty t.side
        p.total_balance t.mmf (p.calc_mmr_other t.id prices)) := by
  simp only [Portfolio.get_liquidation_price, h, hm]

/-- `calc_liquidation_isolated` written without its zero-denominator branch:
in `ℚ`, division by zero is zero, so the floored formula already gives 0
there. -/
theorem calc_liquidation_isolated_eq (entry_price quantity : ℚ) (side : Side)
    (margin mmf : ℚ) :
    calc_liquidation_isolated entry_price quantity side margin mmf =
      (match side with
       | Side.long =>
           max ((margin - quantity * entry_price) /
             (|quantity| * mmf - quantity)) 0
       | Side.short =>
           max ((margin - -quantity * entry_price) /
             (|(-quantity)| * mmf - -quantity)) 0) := by
  cases side with
  | long =>
      unfold calc_liquidation_isolated
      by_cases hz : |quantity| * mmf - quantity = 0
      · rw [if_pos hz, hz, div_zero]
        simp
      · rw [if_neg hz]
  | short =>
      unfold calc_liquidation_isolated
      by_cases hz : |(-quantity)| * mmf - -quantity = 0
      · rw [if_pos hz, hz, div_zero]
        simp
      · rw [if_neg hz]

/-- `_calc_mmr_other` as a sum over the other open trades. -/
theorem calc_mmr_other_eq (p : Portfolio) (ex : ℕ) (prices : List (String × ℚ)) :
    p.calc_mmr_other ex prices =
      ((p.open_trades.filter (fun u => u.id ≠ ex)).map
        (fun u =>
          let price :=
            match lookupPrice prices u.symbol with
            | some pr => pr
            | none => u.entry_price
          |u.qty| * (if price = 0 then u.entry_price else price) * u.mmf)).sum := by
  unfold Portfolio.calc_mmr_other
  rw [foldl_add_map (p.open_trades.filter (fun u => u.id ≠ ex))
    (fun t => t.maintenance_margin_req (some
      (match lookupPrice prices t.symbol with
       | some pr => pr
       | none => t.entry_price)))]
  rw [zero_add]
  rfl

/-- Appending an open trade adds its margin to the margin in use. -/
theorem total_margin_used_append (p : Portfolio) (t : Trade)
    (ht : t.is_open = true) :
    Portfolio.total_margin_used { p with trades := p.trades ++ [t] } =
      p.total_margin_used + t.margin := by
  cases hmode : t.mode <;>
    · simp [Portfolio.total_margin_used, Portfolio.isolated_margin_used,
        Portfolio.cross_margin_used, Portfolio.open_trades,
        List.filter_append, ht, hmode]
      ring

/-- A successful `add_trade` yields the portfolio with the fresh trade
appended and a margin sized from the risk percentage. -/
theorem add_trade_ok {p : Portfolio} {sym : String} {side : Side} {mode : Mode}
    {e tp r lev mmf : ℚ} {p' : Portfolio} {t : Trade}
    (h : p.add_trade sym side mode e tp r lev mmf = Except.ok (p', t)) :
    t = mkTrade p.next_id sym side mode e tp
        (p.total_balance * (r / 100)) lev mmf ∧
      p' = { p with trades := p.trades ++ [t], next_id := p.next_id + 1 } ∧
      p.total_balance * (r / 100) ≤ p.available_balance := by
  unfold Portfolio.add_trade calc_position_size at h
  by_cases hc : p.total_balance * (r / 100) > p.available_balance
  · rw [if_pos hc] at h
    exact absurd h (by simp)
  · rw [if_neg hc] at h
    simp only [Except.ok.injEq, Prod.mk.injEq] at h
    exact ⟨h.2.symm, by rw [← h.1, ← h.2], le_of_not_lt hc⟩

/-- A successful `add_trade_fixed_margin` yields the portfolio with the fresh
trade appended. -/
theorem add_trade_fixed_margin_ok {p : Portfolio} {sym : String} {side : Side}
    {mode : Mode} {e tp m lev mmf : ℚ} {p' : Portfolio} {t : Trade}
    (h : p.add_trade_fixed_margin sym side mode e tp m lev mmf =
      Except.ok (p', t)) :
    t = mkTrade p.next_id sym side mode e tp m lev mmf ∧
      p' = { p with trades := p.trades ++ [t], next_id := p.next_id + 1 } ∧
      m ≤ p.available_balance := by
  unfold Portfolio.add_trade_fixed_margin at h
  by_cases hc : m > p.available_balance
  · rw [if_pos hc] at h
    exact absurd h (by simp)
  · rw [if_neg hc] at h
    simp only [Except.ok.injEq, Prod.mk.injEq] at h
    exact ⟨h.2.symm, by rw [← h.1, ← h.2], le_of_not_lt hc⟩

/-- Appending an open trade of margin `m ≤ available` keeps the available
balance non-negative. -/
theorem available_after_append {p : Portfolio} {t : Trade}
    (ht : t.is_open = true) (hm : t.margin ≤ p.available_balance) :
    0 ≤ (Portfolio.available_balance
      { p with trades := p.trades ++ [t], next_id := p.next_id + 1 }) := by
  have hmu : Portfolio.total_margin_used
      { p with trades := p.trades ++ [t], next_id := p.next_id + 1 } =
        p.total_margin_used + t.margin := by
    have := total_margin_used_append
      { p with next_id := p.next_id + 1 } t ht
    simpa [Portfolio.total_margin_used, Portfolio.isolated_margin_used,
      Portfolio.cross_margin_used, Portfolio.open_trades] using this
  have htb : Portfolio.total_balance
      { p with trades := p.trades ++ [t], next_id := p.next_id + 1 } =
        p.total_balance := rfl
  unfold Portfolio.available_balance
  rw [hmu, htb]
  have := hm
  unfold Portfolio.available_balance at this
  linarith

/-! ### Claim theorems -/

/-- C7: `calc_risk_reward(entryPrice, targetPrice, liquidationPrice, side)`
returns positive infinity exactly when the computed risk is ≤ 0 (long:
`entry − liq ≤ 0`; short: `liq − entry ≤ 0`), for both sides, and returns
`reward / risk` otherwise. -/
theorem claim_C7 (entry_price tp_price liq_price : ℚ) (side : Side) :
    (calc_risk_reward entry_price tp_price liq_price side = RiskReward.inf ↔
      (match side with
       | Side.long => entry_price - liq_price
       | Side.short => liq_price - entry_price) ≤ 0) ∧
    calc_risk_reward entry_price tp_price liq_price side =
      (if (match side with
           | Side.long => entry_price - liq_price
           | Side.short => liq_price - entry_price) ≤ 0 then RiskReward.inf
       else
         RiskReward.ratio
           ((match side with
             | Side.long => tp_price - entry_price
             | Side.short => entry_price - tp_price) /
            (match side with
             | Side.long => entry_price - liq_price
             | Side.short => liq_price - entry_price))) := by
  cases side <;>
    · unfold calc_risk_reward
      by_cases hr : entry_price - liq_price ≤ 0 <;>
        by_cases hr' : liq_price - entry_price ≤ 0 <;>
          simp_all

/-- C8: `calc_pnl_at_tp` at entry 50000, target 55000, margin 1000,
leverage 10, long gives pnl 1000 and ROI 100%; with margin 0 the ROI is 0
(no division-by-zero fault). -/
theorem claim_C8 :
    calc_pnl_at_tp 50000 55000 1000 10 Side.long = (1000, 100) ∧
    ∀ (entry_price tp_price leverage : ℚ) (side : Side),
      (calc_pnl_at_tp entry_price tp_price 0 leverage side).2 = 0 := by
  constructor
  · unfold calc_pnl_at_tp
    norm_num
  · intro e tp lev side
    cases side <;> simp [calc_pnl_at_tp]

/-- C9: `calc_liquidation_price` with mode cross returns the same value as
with mode isolated for every balance and total-margin-used (both reduce to
`entry×(1 − 1/leverage)` long / `entry×(1 + 1/leverage)` short), so those two
arguments never affect the result.  This holds for all leverages, in
particular leverage ≥ 1. -/
theorem claim_C9 (entry_price leverage balance total_margin_used b' m' : ℚ)
    (side : Side) :
    calc_liquidation_price entry_price leverage side Mode.cross
        balance total_margin_used =
      calc_liquidation_price entry_price leverage side Mode.isolated b' m' ∧
    calc_liquidation_price entry_price leverage side Mode.isolated b' m' =
      (match side with
       | Side.long => entry_price * (1 - 1 / leverage)
       | Side.short => entry_price * (1 + 1 / leverage)) := by
  cases side <;> simp [calc_liquidation_price]

/-- C10: a closed trade reports zero unrealized P&L at every price. -/
theorem claim_C10 (t : Trade) (h : t.is_open = false) (current_price : ℚ) :
    t.unrealized_pnl current_price = 0 := by
  simp [Trade.unrealized_pnl, h]

/-- A concrete closed trade used to instantiate C10. -/
def wClosedTrade : Trade :=
  { id := 7
    symbol := "BTC"
    side := Side.short
    mode := Mode.cross
    entry_price := 100
    tp_price := 90
    margin := 10
    leverage := 5
    position_size := 50
    qty := 1/2
    mmf := 3/100
    is_open := false
    realized_pnl := 5 }

theorem claim_C10_witness :
    wClosedTrade.is_open = false ∧ wClosedTrade.unrealized_pnl 42 = 0 :=
  ⟨rfl, claim_C10 wClosedTrade rfl 42⟩

/-- Cross trade used in the C1 counterexample: short 1 unit at 100, MMF 5%. -/
def cxCrossTrade : Trade :=
  { id := 1
    symbol := "AAA"
    side := Side.short
    mode := Mode.cross
    entry_price := 100
    tp_price := 90
    margin := 10
    leverage := 10
    position_size := 100
    qty := 1
    mmf := 1/20
    is_open := true
    realized_pnl := 0 }

/-- Isolated trade used in the C1 counterexample: long 2 units at 50, MMF 3%,
so its maintenance margin requirement at entry is `|2|·50·0.03 = 3`. -/
def cxIsolatedTrade : Trade :=
  { id := 2
    symbol := "BBB"
    side := Side.long
    mode := Mode.isolated
    entry_price := 50
    tp_price := 60
    margin := 100
    leverage := 1
    position_size := 100
    qty := 2
    mmf := 3/100
    is_open := true
    realized_pnl := 0 }

/-- C1 counterexample portfolio: one open cross trade and one open isolated
trade on a 1000 balance. -/
def cxPortfolio : Portfolio :=
  { initial_balance := 1000
    balance := 1000
    realized_pnl := 0
    trades := [cxCrossTrade, cxIsolatedTrade]
    next_id := 3 }

/-- C1 counterexample: the claim says `mmrOther` sums the maintenance margin
requirements of the OTHER OPEN CROSS positions only (isolated ones excluded);
with no other cross position it would be 0 and the liquidation price of the
cross trade would be `(1000 − (−1)·100 − 0) / (|−1|·0.05 − (−1)) = 22000/21`.
The code's `_calc_mmr_other` also counts the open ISOLATED trade (MMR 3), so
`get_liquidation_price` returns `(1000 + 100 − 3) / 1.05 = 21940/21` instead. -/
theorem claim_C1_counterexample :
    cxPortfolio.get_liquidation_price 1 [] = some (21940/21) ∧
    cxPortfolio.get_liquidation_price 1 [] ≠
      some (max ((cxPortfolio.total_balance - -cxCrossTrade.qty *
          cxCrossTrade.entry_price - 0) /
        (|(-cxCrossTrade.qty)| * cxCrossTrade.mmf - -cxCrossTrade.qty)) 0) := by
  have hmmr : cxPortfolio.calc_mmr_other 1 [] = 3 := by
    norm_num [Portfolio.calc_mmr_other, Portfolio.open_trades, cxPortfolio,
      cxCrossTrade, cxIsolatedTrade, List.filter, Trade.maintenance_margin_req,
      calc_mmr, lookupPrice, abs_of_nonneg]
  have hliq : cxPortfolio.get_liquidation_price 1 [] = some (21940/21) := by
    rw [get_liquidation_price_cross []
      (show cxPortfolio.get_trade 1 = some cxCrossTrade from rfl) rfl]
    rw [show cxCrossTrade.id = 1 from rfl, hmmr]
    unfold calc_liquidation_cross
    norm_num [cxCrossTrade, cxPortfolio, Portfolio.total_balance,
      abs_of_nonneg, max_eq_left]
  refine ⟨hliq, ?_⟩
  rw [hliq]
  intro hcontra
  rw [Option.some_inj] at hcontra
  rw [show |(-cxCrossTrade.qty)| = 1 by
      norm_num [cxCrossTrade, abs_of_nonneg]] at hcontra
  norm_num [cxCrossTrade, cxPortfolio, Portfolio.total_balance,
    max_eq_left] at hcontra

/-- C1 (amended): for every cross-mode position found in the portfolio, the
liquidation price is `(totalBalance − s×entryPrice − mmrOther) / (|s|×mmf − s)`
floored at 0 (0 if the denominator is 0), where `mmrOther` sums the
maintenance margin requirements `|qty|×price×mmf` of every OTHER OPEN position
of ANY margin mode — isolated positions included, not excluded as the claim
states — each at its mark price when present and non-zero, else its entry
price. -/
theorem claim_C1 (p : Portfolio) (tid : ℕ) (prices : List (String × ℚ))
    (t : Trade) (h : p.get_trade tid = some t) (hm : t.mode = Mode.cross) :
    p.get_liquidation_price tid prices =
      some (
        let s :=
          match t.side with
          | Side.long => t.qty
          | Side.short => -t.qty
        let mmr_other :=
          ((p.open_trades.filter (fun u => u.id ≠ tid)).map
            (fun u =>
              let price :=
                match lookupPrice prices u.symbol with
                | some pr => pr
                | none => u.entry_price
              |u.qty| * (if price = 0 then u.entry_price else price) *
                u.mmf)).sum
        let denominator := |s| * t.mmf - s
        if denominator = 0 then 0
        else
          max ((p.total_balance - s * t.entry_price - mmr_other) /
            denominator) 0) := by
  obtain ⟨-, hid⟩ := get_trade_spec h
  rw [get_liquidation_price_cross prices h hm, hid, calc_mmr_other_eq]
  rfl

theorem claim_C1_witness :
    cxPortfolio.get_liquidation_price 1 [] =
      some (
        let s :=
          match cxCrossTrade.side with
          | Side.long => cxCrossTrade.qty
          | Side.short => -cxCrossTrade.qty
        let mmr_other :=
          ((cxPortfolio.open_trades.filter (fun u => u.id ≠ 1)).map
            (fun u =>
              let price :=
                match lookupPrice [] u.symbol with
                | some pr => pr
                | none => u.entry_price
              |u.qty| * (if price = 0 then u.entry_price else price) *
                u.mmf)).sum
        let denominator := |s| * cxCrossTrade.mmf - s
        if denominator = 0 then 0
        else
          max ((cxPortfolio.total_balance - s * cxCrossTrade.entry_price -
            mmr_other) / denominator) 0) :=
  claim_C1 cxPortfolio 1 [] cxCrossTrade rfl rfl

/-- The trade produced by the C2 scenario: balance 10000, risk 10 %,
leverage 10, entry 50000, isolated long, MMF 0.03. -/
def tC2 : Trade :=
  mkTrade 1 "BTC" Side.long Mode.isolated 50000 55000
    ((Portfolio.init 10000).total_balance * (10 / 100)) 10 (3/100)

/-- The portfolio after the C2 scenario's open. -/
def pC2 : Portfolio :=
  { Portfolio.init 10000 with trades := [tC2], next_id := 2 }

/-- C2: in general every isolated position's liquidation price is
`(margin − s×entryPrice) / (|s|×mmf − s)` floored at 0 (in `ℚ`, division by
zero is zero, so this expression also covers the code's zero-denominator
branch); concretely, opening from balance 10000 at risk 10 % and leverage 10
an isolated long at 50000 with MMF 0.03 gives margin 1000, position size
10000, quantity 0.2, and liquidation price `4500000/97 ≈ 46391.75`. -/
theorem claim_C2 :
    (∀ (p : Portfolio) (tid : ℕ) (prices : List (String × ℚ)) (t : Trade),
        p.get_trade tid = some t → t.mode = Mode.isolated →
        p.get_liquidation_price tid prices =
          some (
            let s :=
              match t.side with
              | Side.long => t.qty
              | Side.short => -t.qty
            max ((t.margin - s * t.entry_price) / (|s| * t.mmf - s)) 0)) ∧
    (∃ (p' : Portfolio) (tr : Trade),
        (Portfolio.init 10000).add_trade "BTC" Side.long Mode.isolated
            50000 55000 10 10 (3/100) = Except.ok (p', tr) ∧
        tr.margin = 1000 ∧ tr.position_size = 10000 ∧ tr.qty = 1/5 ∧
        p'.get_liquidation_price tr.id [] = some (4500000/97) ∧
        |(4500000 : ℚ)/97 - 46391.75| < 1/100) := by
  constructor
  · intro p tid prices t h hm
    rw [get_liquidation_price_isolated prices h hm, calc_liquidation_isolated_eq]
    cases hs : t.side <;> rfl
  · have hcond : ¬ ((calc_position_size (Portfolio.init 10000).total_balance
        10 10).1 > (Portfolio.init 10000).available_balance) := by
      norm_num [calc_position_size, Portfolio.init, Portfolio.total_balance,
        Portfolio.available_balance, Portfolio.total_margin_used,
        Portfolio.isolated_margin_used, Portfolio.cross_margin_used,
        Portfolio.open_trades]
    have heq : (Portfolio.init 10000).add_trade "BTC" Side.long Mode.isolated
        50000 55000 10 10 (3/100) = Except.ok (pC2, tC2) := by
      simp only [Portfolio.add_trade]
      rw [if_neg hcond]
      rfl
    have hq : tC2.qty = 1/5 := by
      norm_num [tC2, mkTrade, Portfolio.init, Portfolio.total_balance]
    have hliq : pC2.get_liquidation_price tC2.id [] = some (4500000/97) := by
      rw [get_liquidation_price_isolated []
        (show pC2.get_trade tC2.id = some tC2 from rfl) rfl,
        calc_liquidation_isolated_eq]
      norm_num [tC2, mkTrade, Portfolio.init, Portfolio.total_balance,
        abs_of_nonneg, max_eq_left]
    refine ⟨pC2, tC2, heq, ?_, ?_, hq, hliq, ?_⟩
    · norm_num [tC2, mkTrade, Portfolio.init, Portfolio.total_balance]
    · norm_num [tC2, mkTrade, Portfolio.init, Portfolio.total_balance]
    · rw [abs_of_nonneg (by norm_num)]
      norm_num

theorem claim_C2_witness :
    pC2.get_liquidation_price 1 [] =
      some (
        let s :=
          match tC2.side with
          | Side.long => tC2.qty
          | Side.short => -tC2.qty
        max ((tC2.margin - s * tC2.entry_price) / (|s| * tC2.mmf - s)) 0) :=
  claim_C2.1 pC2 1 [] tC2 rfl rfl

/-- The trade opened by the C3 counterexample sequence: isolated long,
margin 100, leverage 10, entry 100, so quantity 10. -/
def tC3 : Trade := mkTrade 1 "BTC" Side.long Mode.isolated 100 200 100 10 (3/100)

/-- The C3 portfolio after the open: balance 100, all of it allocated. -/
def pC3a : Portfolio := { Portfolio.init 100 with trades := [tC3], next_id := 2 }

/-- `tC3` after the close at 50: realized P&L −500. -/
def tC3closed : Trade :=
  { tC3 with realized_pnl := tC3.unrealized_pnl 50, is_open := false }

/-- The C3 portfolio after the close at 50. -/
def pC3b : Portfolio :=
  { pC3a with
      trades := [tC3closed]
      realized_pnl := pC3a.realized_pnl + tC3.unrealized_pnl 50 }

/-- C3 counterexample: from the positive balance 100, open an isolated long
(margin 100, leverage 10, entry 100) and close it at 50.  The realized loss is
`(50 − 100)·10 = −500`, far beyond the 100 margin, leaving
`availableBalance = −400 < 0` — so the invariant does not survive closes. -/
theorem claim_C3_counterexample :
    (0 : ℚ) < 100 ∧
    (applyOps (Portfolio.init 100)
      [Op.openFixed "BTC" Side.long Mode.isolated 100 200 100 10 (3/100),
       Op.close 1 50]).available_balance < 0 := by
  refine ⟨by norm_num, ?_⟩
  have hcond : ¬ ((100 : ℚ) > (Portfolio.init 100).available_balance) := by
    norm_num [Portfolio.init, Portfolio.available_balance,
      Portfolio.total_balance, Portfolio.total_margin_used,
      Portfolio.isolated_margin_used, Portfolio.cross_margin_used,
      Portfolio.open_trades]
  have hopen : applyOp (Portfolio.init 100)
      (Op.openFixed "BTC" Side.long Mode.isolated 100 200 100 10 (3/100)) =
        pC3a := by
    simp only [applyOp, Portfolio.add_trade_fixed_margin]
    rw [if_neg hcond]
    rfl
  have hclose : applyOp pC3a (Op.close 1 50) = pC3b := rfl
  show (applyOp (applyOp (Portfolio.init 100)
    (Op.openFixed "BTC" Side.long Mode.isolated 100 200 100 10 (3/100)))
      (Op.close 1 50)).available_balance < 0
  rw [hopen, hclose]
  norm_num [Portfolio.available_balance, Portfolio.total_balance,
    Portfolio.total_margin_used, Portfolio.isolated_margin_used,
    Portfolio.cross_margin_used, Portfolio.open_trades, pC3b, pC3a,
    tC3closed, tC3, Portfolio.init, Trade.unrealized_pnl, calc_pnl, mkTrade,
    List.filter]

/-- C3 (amended): every open request whose required margin exceeds the current
available balance is rejected with the insufficient-balance error, and after
every ACCEPTED open the available balance is ≥ 0.  (The ≥ 0 invariant does not
extend over closes: a close can realize a loss beyond the trade's margin, see
the counterexample.) -/
theorem claim_C3 :
    (∀ (p : Portfolio) (sym : String) (side : Side) (mode : Mode)
        (e tp r lev mmf : ℚ) (p' : Portfolio) (t : Trade),
        p.add_trade sym side mode e tp r lev mmf = Except.ok (p', t) →
        0 ≤ p'.available_balance) ∧
    (∀ (p : Portfolio) (sym : String) (side : Side) (mode : Mode)
        (e tp m lev mmf : ℚ) (p' : Portfolio) (t : Trade),
        p.add_trade_fixed_margin sym side mode e tp m lev mmf =
          Except.ok (p', t) →
        0 ≤ p'.available_balance) ∧
    (∀ (p : Portfolio) (sym : String) (side : Side) (mode : Mode)
        (e tp r lev mmf : ℚ),
        (calc_position_size p.total_balance r lev).1 > p.available_balance →
        p.add_trade sym side mode e tp r lev mmf =
          Except.error PortfolioError.insufficientBalance) ∧
    (∀ (p : Portfolio) (sym : String) (side : Side) (mode : Mode)
        (e tp m lev mmf : ℚ),
        m > p.available_balance →
        p.add_trade_fixed_margin sym side mode e tp m lev mmf =
          Except.error PortfolioError.insufficientBalance) := by
  refine ⟨?_, ?_, ?_, ?_⟩
  · intro p sym side mode e tp r lev mmf p' t h
    obtain ⟨ht, hp', hle⟩ := add_trade_ok h
    rw [hp']
    exact available_after_append (by rw [ht]; rfl) (by rw [ht]; exact hle)
  · intro p sym side mode e tp m lev mmf p' t h
    obtain ⟨ht, hp', hle⟩ := add_trade_fixed_margin_ok h
    rw [hp']
    exact available_after_append (by rw [ht]; rfl) (by rw [ht]; exact hle)
  · intro p sym side mode e tp r lev mmf h
    unfold Portfolio.add_trade
    rw [if_pos h]
  · intro p sym side mode e tp m lev mmf h
    unfold Portfolio.add_trade_fixed_margin
    rw [if_pos h]

theorem claim_C3_witness : 0 ≤ pC3a.available_balance :=
  claim_C3.2.1 (Portfolio.init 100) "BTC" Side.long Mode.isolated
    100 200 100 10 (3/100) pC3a tC3
    (by
      simp only [Portfolio.add_trade_fixed_margin]
      rw [if_neg (show ¬ ((100 : ℚ) > (Portfolio.init 100).available_balance)
        from by
          norm_num [Portfolio.init, Portfolio.available_balance,
            Portfolio.total_balance, Portfolio.total_margin_used,
            Portfolio.isolated_margin_used, Portfolio.cross_margin_used,
            Portfolio.open_trades])]
      rfl)

/-- Inversion for a successful `close_trade`. -/
theorem close_trade_ok_inv {p : Portfolio} {tid : ℕ} {cp : ℚ} {p' : Portfolio}
    {pnl : ℚ} (h : p.close_trade tid cp = Except.ok (p', pnl)) :
    ∃ tr, p.get_trade tid = some tr ∧ tr.is_open = true ∧
      pnl = tr.unrealized_pnl cp ∧
      p' = { p with
        trades := replaceTrade p.trades tid
          { tr with realized_pnl := tr.unrealized_pnl cp, is_open := false }
        realized_pnl := p.realized_pnl + tr.unrealized_pnl cp } := by
  unfold Portfolio.close_trade at h
  cases hg : p.get_trade tid with
  | none => rw [hg] at h; exact absurd h (by simp)
  | some tr =>
      rw [hg] at h
      by_cases ho : tr.is_open
      · simp only [ho, Bool.not_true, Bool.false_eq_true, if_false,
          Except.ok.injEq, Prod.mk.injEq] at h
        exact ⟨tr, rfl, ho, h.2.symm, h.1.symm⟩
      · simp only [Bool.not_eq_true] at ho
        simp [ho] at h

/-- `get_trade` is unchanged by any operation that is not a close of that
very id. -/
theorem get_trade_applyOp_frame {p : Portfolio} {op : Op} {tid : ℕ} {t : Trade}
    (h : p.get_trade tid = some t) (hop : op.closeId ≠ some tid) :
    (applyOp p op).get_trade tid = some t := by
  cases op with
  | openRisk sym side mode e tp r lev mmf =>
      cases hres : p.add_trade sym side mode e tp r lev mmf with
      | error err => simp only [applyOp, hres]; exact h
      | ok pr =>
          obtain ⟨p1, t1⟩ := pr
          obtain ⟨ht, hp', -⟩ := add_trade_ok hres
          simp only [applyOp, hres, hp']
          exact find?_append_some h
  | openFixed sym side mode e tp m lev mmf =>
      cases hres : p.add_trade_fixed_margin sym side mode e tp m lev mmf with
      | error err => simp only [applyOp, hres]; exact h
      | ok pr =>
          obtain ⟨p1, t1⟩ := pr
          obtain ⟨ht, hp', -⟩ := add_trade_fixed_margin_ok hres
          simp only [applyOp, hres, hp']
          exact find?_append_some h
  | close tid' cp =>
      have hne : tid ≠ tid' := by
        intro hcontra
        exact hop (by rw [Op.closeId, hcontra])
      cases hres : p.close_trade tid' cp with
      | error err => simp only [applyOp, hres]; exact h
      | ok pr =>
          obtain ⟨p1, pnl1⟩ := pr
          obtain ⟨tr, hg, -, -, hp'⟩ := close_trade_ok_inv hres
          simp only [applyOp, hres, hp']
          show ((replaceTrade p.trades tid' _).find? (fun u => u.id = tid)) =
            some t
          rw [find?_replaceTrade_ne (by exact (get_trade_spec hg).2) hne]
          exact h

/-- C4: an open isolated position's reported liquidation price is unchanged
by any operation that is not a close of that position (opens of any kind,
closes of other positions, and any mark-price map), and `rebalance_summary`
reports only open cross positions — never isolated ones. -/
theorem claim_C4 :
    (∀ (p : Portfolio) (op : Op) (tid : ℕ)
        (prices prices' : List (String × ℚ)) (t : Trade),
        p.get_trade tid = some t → t.mode = Mode.isolated →
        op.closeId ≠ some tid →
        (applyOp p op).get_liquidation_price tid prices' =
          p.get_liquidation_price tid prices) ∧
    (∀ (p : Portfolio) (prices : List (String × ℚ)) (e : RebalanceEntry),
        e ∈ p.rebalance_summary prices →
        ∃ t, t ∈ p.trades ∧ t.is_open = true ∧ t.mode = Mode.cross ∧
          e.id = t.id) := by
  constructor
  · intro p op tid prices prices' t h hm hop
    rw [get_liquidation_price_isolated prices' (get_trade_applyOp_frame h hop) hm,
      get_liquidation_price_isolated prices h hm]
  · intro p prices e he
    simp only [Portfolio.rebalance_summary, List.mem_filterMap] at he
    obtain ⟨trade, hmem, hsome⟩ := he
    by_cases hm : trade.mode = Mode.cross
    · rw [if_pos hm] at hsome
      have hmem' := List.mem_filter.mp hmem
      refine ⟨trade, hmem'.1, by simpa using hmem'.2, hm, ?_⟩
      rw [← Option.some_inj.mp hsome]
    · rw [if_neg hm] at hsome
      exact absurd hsome (by simp)

theorem claim_C4_witness :
    (applyOp pC3a (Op.close 2 50)).get_liquidation_price 1 [] =
      pC3a.get_liquidation_price 1 [] :=
  claim_C4.1 pC3a (Op.close 2 50) 1 [] [] tC3 rfl rfl (by decide)

/-- `_get_trade` returns nothing exactly when no trade has the id. -/
theorem get_trade_none_iff (p : Portfolio) (tid : ℕ) :
    p.get_trade tid = none ↔ ∀ t ∈ p.trades, t.id ≠ tid := by
  unfold Portfolio.get_trade
  rw [List.find?_eq_none]
  simp

/-- C5: `close_trade` fails with not-found iff no trade has the id; fails
with already-closed iff the trade found is not open (so every further close
of a closed trade fails the same way); otherwise it returns the P&L at the
close price, records it on the trade, marks the trade closed and adds the
P&L to the portfolio's realized P&L.  Failures raise before any mutation. -/
theorem claim_C5 (p : Portfolio) (tid : ℕ) (cp : ℚ) :
    (p.close_trade tid cp = Except.error PortfolioError.notFound ↔
      ∀ t ∈ p.trades, t.id ≠ tid) ∧
    (p.close_trade tid cp = Except.error PortfolioError.alreadyClosed ↔
      ∃ t, p.get_trade tid = some t ∧ t.is_open = false) ∧
    (∀ t, p.get_trade tid = some t → t.is_open = true →
      ∃ p', p.close_trade tid cp =
          Except.ok (p', calc_pnl t.entry_price cp t.qty t.side) ∧
        p'.get_trade tid = some { t with
          realized_pnl := calc_pnl t.entry_price cp t.qty t.side
          is_open := false } ∧
        p'.realized_pnl =
          p.realized_pnl + calc_pnl t.entry_price cp t.qty t.side ∧
        ∀ cp', p'.close_trade tid cp' =
          Except.error PortfolioError.alreadyClosed) := by
  refine ⟨?_, ?_, ?_⟩
  · cases hg : p.get_trade tid with
    | none =>
        constructor
        · intro _
          exact (get_trade_none_iff p tid).mp hg
        · intro _
          unfold Portfolio.close_trade
          rw [hg]
    | some tr =>
        have htr := get_trade_spec hg
        constructor
        · intro hclose
          exfalso
          unfold Portfolio.close_trade at hclose
          rw [hg] at hclose
          by_cases ho : tr.is_open
          · simp [ho] at hclose
          · simp only [Bool.not_eq_true] at ho
            simp [ho] at hclose
        · intro hall
          exact absurd htr.2 (hall tr htr.1)
  · cases hg : p.get_trade tid with
    | none =>
        constructor
        · intro hclose
          exfalso
          unfold Portfolio.close_trade at hclose
          rw [hg] at hclose
          simp at hclose
        · rintro ⟨t, hsome, -⟩
          exact Option.noConfusion hsome
    | some tr =>
        by_cases ho : tr.is_open
        · constructor
          · intro hclose
            exfalso
            unfold Portfolio.close_trade at hclose
            rw [hg] at hclose
            simp [ho] at hclose
          · rintro ⟨t, hsome, hcl⟩
            exfalso
            rw [Option.some_inj] at hsome
            rw [← hsome] at hcl
            rw [hcl] at ho
            exact Bool.noConfusion ho
        · simp only [Bool.not_eq_true] at ho
          constructor
          · intro _
            exact ⟨tr, rfl, ho⟩
          · intro _
            unfold Portfolio.close_trade
            rw [hg]
            simp [ho]
  · intro t hg ho
    have hpnl : t.unrealized_pnl cp = calc_pnl t.entry_price cp t.qty t.side := by
      simp [Trade.unrealized_pnl, ho]
    have hid : ({ t with
        realized_pnl := calc_pnl t.entry_price cp t.qty t.side
        is_open := false } : Trade).id = tid := (get_trade_spec hg).2
    refine ⟨{ p with
        trades := replaceTrade p.trades tid { t with
          realized_pnl := calc_pnl t.entry_price cp t.qty t.side
          is_open := false }
        realized_pnl := p.realized_pnl +
          calc_pnl t.entry_price cp t.qty t.side }, ?_, ?_, rfl, ?_⟩
    · unfold Portfolio.close_trade
      rw [hg]
      simp only [ho, Bool.not_true, Bool.false_eq_true, if_false]
      rw [hpnl]
    · show (replaceTrade p.trades tid _).find? (fun u => u.id = tid) = some _
      exact find?_replaceTrade_self hg hid
    · intro cp'
      unfold Portfolio.close_trade
      have : (Portfolio.get_trade { p with
          trades := replaceTrade p.trades tid { t with
            realized_pnl := calc_pnl t.entry_price cp t.qty t.side
            is_open := false }
          realized_pnl := p.realized_pnl +
            calc_pnl t.entry_price cp t.qty t.side } tid) = some { t with
          realized_pnl := calc_pnl t.entry_price cp t.qty t.side
          is_open := false } := find?_replaceTrade_self hg hid
      rw [this]
      simp

theorem claim_C5_witness :
    ∃ p', pC3a.close_trade 1 50 =
        Except.ok (p', calc_pnl tC3.entry_price 50 tC3.qty tC3.side) ∧
      p'.get_trade 1 = some { tC3 with
        realized_pnl := calc_pnl tC3.entry_price 50 tC3.qty tC3.side
        is_open := false } ∧
      p'.realized_pnl =
        pC3a.realized_pnl + calc_pnl tC3.entry_price 50 tC3.qty tC3.side ∧
      ∀ cp', p'.close_trade 1 cp' =
        Except.error PortfolioError.alreadyClosed :=
  (claim_C5 pC3a 1 50).2.2 tC3 rfl rfl

/-- C6: closing an open position at its own entry price realizes zero P&L and
leaves the portfolio's total balance unchanged. -/
theorem claim_C6 (p : Portfolio) (tid : ℕ) (t : Trade)
    (h : p.get_trade tid = some t) (ho : t.is_open = true) :
    ∃ p', p.close_trade tid t.entry_price = Except.ok (p', 0) ∧
      p'.total_balance = p.total_balance := by
  have hpnl : t.unrealized_pnl t.entry_price = 0 := by
    cases hs : t.side <;> simp [Trade.unrealized_pnl, ho, calc_pnl, hs]
  refine ⟨{ p with
      trades := replaceTrade p.trades tid { t with
        realized_pnl := t.unrealized_pnl t.entry_price
        is_open := false }
      realized_pnl := p.realized_pnl + t.unrealized_pnl t.entry_price },
    ?_, ?_⟩
  · unfold Portfolio.close_trade
    rw [h]
    simp only [ho, Bool.not_true, Bool.false_eq_true, if_false]
    rw [hpnl]
  · simp [Portfolio.total_balance, hpnl]

theorem claim_C6_witness :
    ∃ p', pC3a.close_trade 1 tC3.entry_price = Except.ok (p', 0) ∧
      p'.total_balance = pC3a.total_balance :=
  claim_C6 pC3a 1 tC3 rfl rfl
